import Mathlib

/-!
Verification of the greenshoes-admin client core: session store handling,
request/response interceptors, the auth controller (login / logout /
session restore), the route guard, and the product/color/size
normalization layer of the API client (src/services/api.js,
src/context/AdminAuthContext.jsx, src/components/ProtectedRoute.jsx).

Modelling conventions:
  - localStorage is a pair of optional strings (keys admin_token and
    admin_user); `none` models an absent key (getItem returns null).
  - JS truthiness of a string read from storage: null and "" are falsy,
    every other string is truthy.
  - JSON.parse of the stored user record is an external builtin; the
    restore operation takes it as an explicit `parse` argument.
  - colors/sizes array elements arrive from the server either as bare
    JSON strings or as objects with a `value` field.  For the
    normalization claims the structural type `Entry` is used.  For the
    deduplication claims, JS Map/Set keys compare objects by reference
    (SameValueZero), so raw elements are modelled by `REntry`, which
    tags each object with the identity of its parse-time reference.
-/

namespace Greenshoes

/-- Persistent admin session storage: the admin_token and admin_user
localStorage entries.  `none` means the key is absent. -/
structure Store where
  token : Option String
  user : Option String
deriving DecidableEq

/-- Storage with neither entry present. -/
def emptyStore : Store := ⟨none, none⟩

/-- JS truthiness of `localStorage.getItem` results: null (absent key)
and the empty string are falsy; any other string is truthy. -/
def truthy : Option String → Bool
  | none => false
  | some s => s ≠ ""

/-- Request interceptor (api.js lines 11-17): read admin_token; if it is
truthy, set `Authorization: Bearer <token>`; otherwise leave the request
without an Authorization header. -/
def requestInterceptor (s : Store) : Option String :=
  match s.token with
  | some t => if t = "" then none else some ("Bearer " ++ t)
  | none => none

/-- Result of running the response interceptor's error branch: the
storage state afterwards, the removeItem calls it issued, the
window.location assignments it issued, and whether the error is
re-raised (Promise.reject) to the caller. -/
structure InterceptOut where
  store : Store
  removes : List String
  redirects : List String
  rejected : Bool
deriving DecidableEq

/-- Response interceptor error branch (api.js lines 20-30): on a
response with status 401, remove admin_token and admin_user and assign
window.location.href = '/login'; in every case re-raise the error.
`status` is `error.response?.status` (none when there was no response). -/
def responseInterceptor (s : Store) (status : Option Nat) : InterceptOut :=
  if status = some 401 then
    { store := emptyStore
      removes := ["admin_token", "admin_user"]
      redirects := ["/login"]
      rejected := true }
  else
    { store := s, removes := [], redirects := [], rejected := true }

/-- One step of handling a batch of failed responses: run the
interceptor on the current storage state and append its effects. -/
def interceptStep (acc : Store × List String × List String)
    (st : Option Nat) : Store × List String × List String :=
  let out := responseInterceptor acc.1 st
  (out.store, acc.2.1 ++ out.removes, acc.2.2 ++ out.redirects)

/-- A batch of failed responses handled one after the other on the
single JS thread, accumulating the storage state and all removeItem /
redirect effects in order. -/
def interceptBatch (s : Store) (statuses : List (Option Nat)) :
    Store × List String × List String :=
  statuses.foldl interceptStep (s, [], [])

/-- The admin user record returned by the login endpoint and cached in
storage. -/
structure UserRecord where
  id : Nat
  email : String
  role : String
deriving DecidableEq

/-- JSON.stringify of a user record, as stored under admin_user by a
successful login. -/
def stringifyUser (u : UserRecord) : String :=
  "\x7b\"id\":" ++ toString u.id ++ ",\"email\":\"" ++ u.email ++
    "\",\"role\":\"" ++ u.role ++ "\"\x7d"

/-- Session-restore effect (AdminAuthContext.jsx lines 45-64): read both
entries; if both are truthy, JSON.parse the user record and set it as
the current admin; if parsing throws, remove both entries.  Returns the
resulting auth state (some user = Authenticated, none = Unauthenticated)
and the resulting storage.  `parse` models JSON.parse followed by the
catch: `none` means the parse threw. -/
def restoreSession (parse : String → Option UserRecord) (s : Store) :
    Option UserRecord × Store :=
  match s.token, s.user with
  | some t, some d =>
    if t = "" ∨ d = "" then (none, s)
    else
      match parse d with
      | some u => (some u, s)
      | none => (none, emptyStore)
  | _, _ => (none, s)

/-- Outcome of the login HTTP request as observed by
AdminAuthProvider.login: either `response.data` destructured into
token and user, or a rejection whose optional payload is
`error.response?.data?.error`. -/
inductive LoginResponse where
  | success (token : String) (user : UserRecord)
  | failure (serverMsg : Option String)
deriving DecidableEq

/-- The value login resolves with: `{success, error?}`. -/
structure LoginResult where
  success : Bool
  error : Option String
deriving DecidableEq

/-- Login (AdminAuthContext.jsx lines 68-100): on a successful request,
reject non-ADMIN roles without touching storage or state; for ADMIN,
persist token and stringified user and set the admin state.  On a
request failure, return `error.response?.data?.error || 'Login failed'`
(the JS `||` falls through on an absent or empty message) and leave
storage and state alone.  Arguments and results carry the storage and
the `admin` state explicitly. -/
def login (resp : LoginResponse) (s : Store) (admin : Option UserRecord) :
    LoginResult × Store × Option UserRecord :=
  match resp with
  | .success token user =>
    if user.role ≠ "ADMIN" then
      (⟨false, some "Access denied. Admin privileges required."⟩, s, admin)
    else
      (⟨true, none⟩, ⟨some token, some (stringifyUser user)⟩, some user)
  | .failure m =>
    (⟨false, some (match m with
        | some e => if e = "" then "Login failed" else e
        | none => "Login failed")⟩, s, admin)

/-- Logout (AdminAuthContext.jsx lines 104-111): remove both entries and
clear the admin state. -/
def logout (_s : Store) : Store × Option UserRecord :=
  (emptyStore, none)

/-- What ProtectedRoute renders. -/
inductive Render where
  | spinner
  | content
  | redirectLoginReplace
deriving DecidableEq

/-- Route guard (ProtectedRoute.jsx lines 30-64): while loading, render
the spinner; afterwards render the Outlet when authenticated, else a
replacing Navigate to /login. -/
def protectedRoute (loading : Bool) (isAuthenticated : Bool) : Render :=
  if loading then .spinner
  else if isAuthenticated then .content
  else .redirectLoginReplace

/-- A colors/sizes array element as a structural value: a bare JSON
string or an object with a `value` field. -/
inductive Entry where
  | str (s : String)
  | obj (v : String)
deriving DecidableEq

/-- The underlying scalar of an element: the string itself, or the
object's `value` field. -/
def entryVal : Entry → String
  | .str s => s
  | .obj v => v

/-- A product record as it flows through productsAPI.getAll.  `rest`
stands for all the other fields carried through by the object spread;
`none` for colors/sizes models an absent or null field (the code's
`p.colors?.map ? ... : p.colors || []` fallback). -/
structure Product where
  main_image : Option String
  image : Option String
  colors : Option (List Entry)
  sizes : Option (List Entry)
  rest : List (String × String)
deriving DecidableEq

/-- Per-element color normalization (api.js line 47):
`typeof c === 'string' ? c : c.value`. -/
def normColor : Entry → Entry
  | .str s => .str s
  | .obj v => .str v

/-- Per-element size normalization (api.js line 49):
`typeof s === 'string' ? { value: s } : s`. -/
def normSize : Entry → Entry
  | .str v => .obj v
  | .obj v => .obj v

/-- Per-product normalization in productsAPI.getAll (api.js lines
42-50): spread the product, set image from main_image, map colors and
sizes elementwise (an absent array becomes []). -/
def normalizeProduct (p : Product) : Product :=
  { p with
    image := p.main_image
    colors := some ((p.colors.getD []).map normColor)
    sizes := some ((p.sizes.getD []).map normSize) }

/-- productsAPI.getAll over the raw response's products field
(`response.data.products?.map(...) || []`). -/
def productsGetAll : Option (List Product) → List Product
  | some l => l.map normalizeProduct
  | none => []

/-- A raw colors/sizes array element with reference identity: JSON.parse
of the product-list response produces a fresh object for every
`\x7bvalue: ...\x7d` literal, so each object element carries the
identity `ref` of that reference.  Bare strings have no identity. -/
inductive REntry where
  | rstr (s : String)
  | robj (ref : Nat) (v : String)
deriving DecidableEq

/-- The SameValueZero key under which a JS Map or Set stores such an
element: strings compare by value, objects by reference. -/
inductive JKey where
  | kstr (s : String)
  | kref (ref : Nat)
deriving DecidableEq

/-- The key an element contributes to a Map/Set (SameValueZero). -/
def jsKey : REntry → JKey
  | .rstr s => .kstr s
  | .robj r _ => .kref r

/-- The scalar string a raw element denotes (for a bare string the
string itself, for an object its value field). -/
def rVal : REntry → String
  | .rstr s => s
  | .robj _ v => v

/-- A raw product as consumed by colorsAPI.getAll / sizesAPI.getAll
(these read the unnormalized /admin/products response directly). -/
structure RawProduct where
  colors : Option (List REntry)
  sizes : Option (List REntry)
deriving DecidableEq

/-- The `\x7bid: c, value: c\x7d` record colorsAPI/sizesAPI put in their
output; both fields are the raw element itself. -/
structure IdValue where
  id : REntry
  value : REntry
deriving DecidableEq

/-- JS `Map.prototype.set` on an association list kept in insertion
order: an existing key keeps its position but its value is overwritten;
a new key is appended. -/
def mapSet (m : List (JKey × IdValue)) (k : JKey) (v : IdValue) :
    List (JKey × IdValue) :=
  if m.any (fun p => p.1 = k) then
    m.map (fun p => if p.1 = k then (p.1, v) else p)
  else m ++ [(k, v)]

/-- colorsAPI.getAll (api.js lines 77-85): flatten every product's
colors, build `new Map(allColors.map(c => [typeof c === 'string' ? c : c,
\x7bid: c, value: c\x7d]))` — note the key is the raw element `c` in both
branches — and return the Map's values in order. -/
def colorsGetAll (ps : Option (List RawProduct)) : List IdValue :=
  let allColors := (ps.getD []).flatMap (fun p => p.colors.getD [])
  (allColors.foldl (fun m c => mapSet m (jsKey c) ⟨c, c⟩) []).map Prod.snd

/-- JS `Set` insertion on a list kept in insertion order: an element
whose SameValueZero key is already present is dropped, otherwise it is
appended. -/
def setAdd (l : List REntry) (e : REntry) : List REntry :=
  if l.any (fun x => jsKey x = jsKey e) then l else l ++ [e]

/-- sizesAPI.getAll (api.js lines 88-97): flatten every product's sizes,
deduplicate with `new Set(allSizes)` (SameValueZero), then map each kept
element v to `\x7bid: v, value: v\x7d`. -/
def sizesGetAll (ps : Option (List RawProduct)) : List IdValue :=
  let allSizes := (ps.getD []).flatMap (fun p => p.sizes.getD [])
  (allSizes.foldl setAdd []).map (fun v => ⟨v, v⟩)

/-! Helper lemmas on the normalization maps. -/

/-- Per-element color normalization always yields the bare scalar. -/
theorem normColor_eq_val : normColor = fun c => Entry.str (entryVal c) :=
  funext fun c => by cases c <;> rfl

/-- Per-element size normalization always yields the wrapped scalar. -/
theorem normSize_eq_val : normSize = fun e => Entry.obj (entryVal e) :=
  funext fun e => by cases e <;> rfl

/-- Color normalization is idempotent elementwise. -/
theorem normColor_comp : normColor ∘ normColor = normColor :=
  funext fun c => by cases c <;> rfl

/-- Size normalization is idempotent elementwise. -/
theorem normSize_comp : normSize ∘ normSize = normSize :=
  funext fun e => by cases e <;> rfl

/-- Per-product normalization is idempotent. -/
theorem normalizeProduct_idem (p : Product) :
    normalizeProduct (normalizeProduct p) = normalizeProduct p := by
  cases p with
  | mk mi im c s r =>
    simp [normalizeProduct, List.map_map, normColor_comp, normSize_comp]

/-- C1: productsAPI.getAll maps each raw product through the
normalization, which sets the display image from the primary-image
field, turns every colors element into the bare scalar string (a bare
string is kept, an object is replaced by its value), and turns every
sizes element into a value-object (a bare string is wrapped, an object
is kept); the concrete example raw product is covered by the witness. -/
theorem productsGetAll_normalizes (ps : List Product) :
    productsGetAll (some ps) = ps.map normalizeProduct ∧
    ∀ p ∈ ps, ∀ l m, p.colors = some l → p.sizes = some m →
      (normalizeProduct p).image = p.main_image ∧
      (normalizeProduct p).colors
        = some (l.map fun c => Entry.str (entryVal c)) ∧
      (normalizeProduct p).sizes
        = some (m.map fun e => Entry.obj (entryVal e)) := by
  refine ⟨rfl, fun p _ l m hc hs => ⟨rfl, ?_, ?_⟩⟩
  · simp [normalizeProduct, hc, normColor_eq_val]
  · simp [normalizeProduct, hs, normSize_eq_val]

/-- Witness for C1 at the spec's example raw product
`\x7bcolors:["red",\x7bvalue:"blue"\x7d], sizes:["7",\x7bvalue:"8"\x7d]\x7d`. -/
theorem productsGetAll_normalizes_witness :
    (normalizeProduct
        ⟨some "img.jpg", none, some [.str "red", .obj "blue"],
          some [.str "7", .obj "8"], []⟩).image = some "img.jpg" ∧
    (normalizeProduct
        ⟨some "img.jpg", none, some [.str "red", .obj "blue"],
          some [.str "7", .obj "8"], []⟩).colors
      = some [Entry.str "red", Entry.str "blue"] ∧
    (normalizeProduct
        ⟨some "img.jpg", none, some [.str "red", .obj "blue"],
          some [.str "7", .obj "8"], []⟩).sizes
      = some [Entry.obj "7", Entry.obj "8"] := by
  have h := (productsGetAll_normalizes
      [⟨some "img.jpg", none, some [.str "red", .obj "blue"],
        some [.str "7", .obj "8"], []⟩]).2
      ⟨some "img.jpg", none, some [.str "red", .obj "blue"],
        some [.str "7", .obj "8"], []⟩
      (List.mem_singleton.mpr rfl)
      [.str "red", .obj "blue"] [.str "7", .obj "8"] rfl rfl
  exact ⟨h.1, h.2.1.trans (by decide), h.2.2.trans (by decide)⟩

/-- C2: the product-listing normalization is idempotent — per product,
normalizing twice equals normalizing once, and the whole getAll pass is
a no-op on its own output. -/
theorem productsGetAll_idempotent (p : Product) (ps : List Product) :
    normalizeProduct (normalizeProduct p) = normalizeProduct p ∧
    productsGetAll (some (productsGetAll (some ps)))
      = productsGetAll (some ps) := by
  refine ⟨normalizeProduct_idem p, ?_⟩
  simp only [productsGetAll, List.map_map]
  exact List.map_congr_left fun q _ => normalizeProduct_idem q

/-- C8: the route guard renders the neutral spinner whenever the auth
state is still loading, renders the protected content exactly when
loading is over and the state is authenticated, and otherwise issues a
history-replacing redirect to /login; protected content is never
rendered while loading or unauthenticated. -/
theorem protectedRoute_gate (loading isAuth : Bool) :
    (loading = true → protectedRoute loading isAuth = .spinner) ∧
    (loading = false → isAuth = true →
      protectedRoute loading isAuth = .content) ∧
    (loading = false → isAuth = false →
      protectedRoute loading isAuth = .redirectLoginReplace) ∧
    (protectedRoute loading isAuth = .content ↔
      loading = false ∧ isAuth = true) := by
  cases loading <;> cases isAuth <;> simp [protectedRoute]

/-- Witness for C8 at the three reachable state combinations. -/
theorem protectedRoute_gate_witness :
    protectedRoute true false = Render.spinner ∧
    protectedRoute false true = Render.content ∧
    protectedRoute false false = Render.redirectLoginReplace :=
  ⟨(protectedRoute_gate true false).1 rfl,
    (protectedRoute_gate false true).2.1 rfl rfl,
    (protectedRoute_gate false false).2.2.1 rfl rfl⟩

/-! Interceptor batch lemmas. -/

/-- Folding a batch from a non-empty effect accumulator just prepends
the accumulator to the effects of the batch from an empty one. -/
theorem interceptBatch_acc (sts : List (Option Nat)) (s : Store)
    (r1 r2 : List String) :
    sts.foldl interceptStep (s, r1, r2)
      = ((interceptBatch s sts).1,
          r1 ++ (interceptBatch s sts).2.1,
          r2 ++ (interceptBatch s sts).2.2) := by
  induction sts generalizing s r1 r2 with
  | nil => simp [interceptBatch]
  | cons st sts ih =>
    simp only [interceptBatch, List.foldl_cons]
    rw [show interceptStep (s, r1, r2) st
        = ((responseInterceptor s st).store,
            r1 ++ (responseInterceptor s st).removes,
            r2 ++ (responseInterceptor s st).redirects) from rfl]
    rw [show interceptStep (s, ([] : List String), ([] : List String)) st
        = ((responseInterceptor s st).store,
            (responseInterceptor s st).removes,
            (responseInterceptor s st).redirects) from by
      simp [interceptStep]]
    rw [ih, ih]
    simp [List.append_assoc]

/-- A batch of n+1 responses that all carry status 401 empties the
storage and issues one redirect per response. -/
theorem interceptBatch_all401 (n : Nat) (s : Store) :
    (interceptBatch s (List.replicate (n + 1) (some 401))).1 = emptyStore ∧
    (interceptBatch s (List.replicate (n + 1) (some 401))).2.2
      = List.replicate (n + 1) "/login" := by
  induction n generalizing s with
  | zero => exact ⟨rfl, rfl⟩
  | succ n ih =>
    rw [List.replicate_succ]
    simp only [interceptBatch, List.foldl_cons]
    rw [show interceptStep (s, ([] : List String), ([] : List String))
          (some 401)
        = (emptyStore, ["admin_token", "admin_user"], ["/login"]) from rfl]
    rw [interceptBatch_acc]
    exact ⟨(ih emptyStore).1, by
      rw [(ih emptyStore).2, List.replicate_succ]
      rfl⟩

/-- C4 (amended): each intercepted response with status 401 clears both
storage entries and issues one redirect to /login, synchronously as part
of handling that response, before the rejection is passed on; a response
with any other status (or no response) leaves storage unchanged and
causes no redirect; every error is re-raised.  A batch of n+1 concurrent
401 responses therefore performs n+1 clears and n+1 redirects (one per
response, all to /login, net storage effect one clear), not one per
batch. -/
theorem responseInterceptor_401 (s : Store) (st : Option Nat) (n : Nat) :
    (st = some 401 →
      responseInterceptor s st
        = ⟨emptyStore, ["admin_token", "admin_user"], ["/login"], true⟩) ∧
    (st ≠ some 401 →
      responseInterceptor s st = ⟨s, [], [], true⟩) ∧
    (responseInterceptor s st).rejected = true ∧
    (interceptBatch s (List.replicate (n + 1) (some 401))).1 = emptyStore ∧
    (interceptBatch s (List.replicate (n + 1) (some 401))).2.2
      = List.replicate (n + 1) "/login" := by
  refine ⟨fun h => ?_, fun h => ?_, ?_, interceptBatch_all401 n s⟩
  · simp [responseInterceptor, h]
  · simp [responseInterceptor, h]
  · by_cases h : st = some 401 <;> simp [responseInterceptor, h]

/-- Witness for C4 (amended) at a 401, a 500 and a two-response batch. -/
theorem responseInterceptor_401_witness :
    responseInterceptor ⟨some "t", some "u"⟩ (some 401)
      = ⟨emptyStore, ["admin_token", "admin_user"], ["/login"], true⟩ ∧
    responseInterceptor ⟨some "t", some "u"⟩ (some 500)
      = ⟨⟨some "t", some "u"⟩, [], [], true⟩ ∧
    (interceptBatch ⟨some "t", some "u"⟩
        (List.replicate 2 (some 401))).2.2 = List.replicate 2 "/login" :=
  ⟨(responseInterceptor_401 ⟨some "t", some "u"⟩ (some 401) 0).1 rfl,
    (responseInterceptor_401 ⟨some "t", some "u"⟩ (some 500) 0).2.1
      (by decide),
    (responseInterceptor_401 ⟨some "t", some "u"⟩ (some 401) 1).2.2.2.2⟩

/-- Counterexample for C4 as stated: two concurrent requests that both
received 401 produce two clears (four removeItem calls) and two
redirects, not exactly one clear and one redirect for the batch. -/
theorem responseInterceptor_batch_counterexample :
    (interceptBatch ⟨some "t", some "u"⟩ [some 401, some 401]).2.2
      = ["/login", "/login"] ∧
    (interceptBatch ⟨some "t", some "u"⟩ [some 401, some 401]).2.2.length
      ≠ 1 ∧
    (interceptBatch ⟨some "t", some "u"⟩ [some 401, some 401]).2.1
      = ["admin_token", "admin_user", "admin_token", "admin_user"] := by
  decide

/-- C5 (amended): login is atomic on failure.  A successful request
whose user role is not ADMIN returns a failure result and changes
neither storage nor auth state, so a subsequent session restore from an
initially empty store still finds nothing; a failed request returns a
failure result whose message is the server-provided one when that is
present and non-empty, and the generic 'Login failed' when the server
message is absent or empty, again changing neither storage nor state. -/
theorem login_failure_atomic (parse : String → Option UserRecord)
    (s : Store) (admin : Option UserRecord) (t : String)
    (u : UserRecord) (m : Option String) :
    (u.role ≠ "ADMIN" →
      (login (.success t u) s admin).1.success = false ∧
      (login (.success t u) s admin).2.1 = s ∧
      (login (.success t u) s admin).2.2 = admin ∧
      restoreSession parse (login (.success t u) emptyStore none).2.1
        = (none, emptyStore)) ∧
    (login (.failure m) s admin).1.success = false ∧
    (login (.failure m) s admin).2.1 = s ∧
    (login (.failure m) s admin).2.2 = admin ∧
    (∀ e, m = some e → e ≠ "" →
      (login (.failure m) s admin).1.error = some e) ∧
    ((m = none ∨ m = some "") →
      (login (.failure m) s admin).1.error = some "Login failed") := by
  refine ⟨fun hrole => ?_, rfl, rfl, rfl, fun e he he2 => ?_, fun hm => ?_⟩
  · simp [login, hrole, restoreSession, emptyStore]
  · subst he; simp [login, he2]
  · rcases hm with hm | hm <;> subst hm <;> simp [login]

/-- Witness for C5 (amended): a CUSTOMER-role success leaves a populated
store alone, and a failed request surfaces the non-empty server
message. -/
theorem login_failure_atomic_witness :
    (login (.success "tok" ⟨1, "a@x.com", "CUSTOMER"⟩)
        ⟨some "x", some "y"⟩ none).2.1 = ⟨some "x", some "y"⟩ ∧
    (login (.failure (some "Bad credentials"))
        ⟨some "x", some "y"⟩ none).1.error = some "Bad credentials" := by
  have h := login_failure_atomic (fun _ => none) ⟨some "x", some "y"⟩
    none "tok" ⟨1, "a@x.com", "CUSTOMER"⟩ (some "Bad credentials")
  exact ⟨(h.1 (by decide)).2.1, h.2.2.2.2.1 "Bad credentials" rfl (by decide)⟩

/-- Counterexample for C5 as stated: when the server provides the error
message "" (present but empty), login reports the generic 'Login failed'
rather than the server-provided message. -/
theorem login_emptyMsg_counterexample :
    (login (.failure (some "")) emptyStore none).1.error
      = some "Login failed" ∧
    (login (.failure (some "")) emptyStore none).1.error ≠ some "" := by
  decide

/-- C6: if at session restore both entries are present (and truthy) but
the stored user record fails to parse, the restore returns the
Unauthenticated state, removes both entries, and every subsequent
restore finds the empty store. -/
theorem restoreSession_corrupt (parse : String → Option UserRecord)
    (s : Store) (t d : String) (ht : s.token = some t) (ht2 : t ≠ "")
    (hd : s.user = some d) (hd2 : d ≠ "") (hp : parse d = none) :
    restoreSession parse s = (none, emptyStore) ∧
    restoreSession parse (restoreSession parse s).2
      = (none, emptyStore) := by
  obtain ⟨tok, usr⟩ := s
  simp only at ht hd
  subst ht; subst hd
  have h1 : restoreSession parse ⟨some t, some d⟩ = (none, emptyStore) := by
    simp [restoreSession, ht2, hd2, hp]
  exact ⟨h1, by rw [h1]; rfl⟩

/-- Witness for C6 at a store holding a token and an unparseable user
record. -/
theorem restoreSession_corrupt_witness :
    restoreSession (fun _ => none) ⟨some "tk", some "corrupt"⟩
      = (none, emptyStore) :=
  (restoreSession_corrupt (fun _ => none) ⟨some "tk", some "corrupt"⟩
    "tk" "corrupt" rfl (by decide) rfl (by decide) rfl).1

/-- C7 (amended): the request interceptor attaches
`Authorization: Bearer <token>` exactly when a non-empty token is stored
under admin_token; an absent entry — or the JS-falsy empty string —
sends the request without an Authorization header. -/
theorem requestInterceptor_bearer (s : Store) (t : String) :
    (s.token = some t → t ≠ "" →
      requestInterceptor s = some ("Bearer " ++ t)) ∧
    ((s.token = none ∨ s.token = some "") →
      requestInterceptor s = none) ∧
    (requestInterceptor s ≠ none ↔
      ∃ v, s.token = some v ∧ v ≠ "") := by
  obtain ⟨tok, usr⟩ := s
  cases tok with
  | none => simp [requestInterceptor]
  | some a =>
    by_cases ha : a = ""
    · subst ha
      refine ⟨fun h1 h2 => ?_, fun _ => rfl, ?_⟩
      · cases h1; exact absurd rfl h2
      · simp [requestInterceptor]
    · refine ⟨fun h1 _ => ?_, fun h1 => ?_, ?_⟩
      · cases h1; simp [requestInterceptor, ha]
      · rcases h1 with h1 | h1
        · exact absurd h1 (by simp)
        · cases h1; exact absurd rfl ha
      · simp [requestInterceptor, ha]

/-- Witness for C7 (amended): a stored non-empty token is attached, an
absent one is not. -/
theorem requestInterceptor_bearer_witness :
    requestInterceptor ⟨some "abc", none⟩ = some ("Bearer " ++ "abc") ∧
    requestInterceptor ⟨none, none⟩ = none :=
  ⟨(requestInterceptor_bearer ⟨some "abc", none⟩ "abc").1 rfl (by decide),
    (requestInterceptor_bearer ⟨none, none⟩ "").2.1 (Or.inl rfl)⟩

/-- Counterexample for C7 as stated: with the empty string stored under
admin_token the entry is present, yet no Authorization header is
attached (JS treats "" as falsy). -/
theorem requestInterceptor_emptyToken_counterexample :
    (Store.mk (some "") none).token ≠ none ∧
    requestInterceptor ⟨some "", none⟩ = none := by
  decide

/-- C9: every storage-writing operation of the program handles the two
entries together — the session restore either leaves storage untouched
or clears both, login either leaves storage untouched or writes both
entries, logout clears both, and the response interceptor either leaves
storage untouched or clears both. -/
theorem store_entries_together (parse : String → Option UserRecord)
    (s : Store) (resp : LoginResponse) (admin : Option UserRecord)
    (st : Option Nat) :
    ((restoreSession parse s).2 = s ∨
      (restoreSession parse s).2 = emptyStore) ∧
    ((login resp s admin).2.1 = s ∨
      ∃ t u, (login resp s admin).2.1 = Store.mk (some t) (some u)) ∧
    (logout s).1 = emptyStore ∧
    ((responseInterceptor s st).store = s ∨
      (responseInterceptor s st).store = emptyStore) := by
  refine ⟨?_, ?_, rfl, ?_⟩
  · obtain ⟨tok, usr⟩ := s
    cases tok with
    | none => exact Or.inl rfl
    | some t =>
      cases usr with
      | none => exact Or.inl rfl
      | some d =>
        by_cases h : t = "" ∨ d = ""
        · exact Or.inl (by simp [restoreSession, h])
        · cases hp : parse d with
          | none => exact Or.inr (by simp [restoreSession, h, hp])
          | some u => exact Or.inl (by simp [restoreSession, h, hp])
  · cases resp with
    | success t u =>
      by_cases h : u.role = "ADMIN"
      · exact Or.inr ⟨t, stringifyUser u, by simp [login, h]⟩
      · exact Or.inl (by simp [login, h])
    | failure m => exact Or.inl rfl
  · by_cases h : st = some 401
    · exact Or.inr (by simp [responseInterceptor, h])
    · exact Or.inl (by simp [responseInterceptor, h])

/-- C10 (amended): when exactly one of the two entries is present at
session restore, the restore leaves the auth state Unauthenticated and
does not remove the residual entry; when the leftover entry is a
non-empty token, every subsequent request still carries it as a Bearer
header (an empty leftover token, being JS-falsy, is not attached). -/
theorem restoreSession_single_entry (parse : String → Option UserRecord)
    (s : Store) (t d : String) :
    (s.token = some t → s.user = none →
      restoreSession parse s = (none, s)) ∧
    (s.token = none → s.user = some d →
      restoreSession parse s = (none, s)) ∧
    (s.token = some t → s.user = none → t ≠ "" →
      requestInterceptor s = some ("Bearer " ++ t)) := by
  obtain ⟨tok, usr⟩ := s
  refine ⟨fun h1 h2 => ?_, fun h1 h2 => ?_, fun h1 h2 h3 => ?_⟩
  · simp only at h1 h2; subst h1; subst h2; rfl
  · simp only at h1 h2; subst h1; subst h2; rfl
  · simp only at h1 h2; subst h1; subst h2
    simp [requestInterceptor, h3]

/-- Witness for C10 (amended) at a store holding only a non-empty
token. -/
theorem restoreSession_single_entry_witness :
    restoreSession (fun _ => none) ⟨some "leftover", none⟩
      = (none, ⟨some "leftover", none⟩) ∧
    requestInterceptor ⟨some "leftover", none⟩
      = some ("Bearer " ++ "leftover") := by
  have h := restoreSession_single_entry (fun _ => none)
    ⟨some "leftover", none⟩ "leftover" ""
  exact ⟨h.1 rfl rfl, h.2.2 rfl rfl (by decide)⟩

/-- Counterexample for C10 as stated: a residual empty-string token is a
present entry that the restore indeed leaves in place, yet it is not
attached to outgoing requests, because JS treats "" as falsy. -/
theorem restoreSession_residual_counterexample :
    restoreSession (fun _ => none) ⟨some "", none⟩
      = (none, ⟨some "", none⟩) ∧
    requestInterceptor ⟨some "", none⟩ = none := by
  exact ⟨rfl, rfl⟩

/-! Deduplication key machinery for the derived color/size
enumerations. -/

/-- The key list of a Map association list. -/
def keysOf (m : List (JKey × IdValue)) : List JKey := m.map Prod.fst

/-- Abstract SameValueZero key insertion: a known key is dropped, a new
one is appended. -/
def kInsert (ks : List JKey) (k : JKey) : List JKey :=
  if k ∈ ks then ks else ks ++ [k]

/-- The Map's key-overwrite test agrees with key-list membership. -/
theorem any_fst_eq (m : List (JKey × IdValue)) (k : JKey) :
    (m.any (fun p => p.1 = k)) = true ↔ k ∈ keysOf m := by
  constructor
  · intro h
    rcases List.any_eq_true.mp h with ⟨x, hx, hpx⟩
    exact List.mem_map.mpr ⟨x, hx, of_decide_eq_true hpx⟩
  · intro h
    rcases List.mem_map.mp h with ⟨x, hx, hfx⟩
    exact List.any_eq_true.mpr ⟨x, hx, decide_eq_true hfx⟩

/-- Map.set either keeps the key list or appends the new key. -/
theorem keysOf_mapSet (m : List (JKey × IdValue)) (k : JKey)
    (v : IdValue) : keysOf (mapSet m k v) = kInsert (keysOf m) k := by
  by_cases h : k ∈ keysOf m
  · rw [kInsert, if_pos h, mapSet, if_pos ((any_fst_eq m k).mpr h)]
    simp only [keysOf, List.map_map]
    exact List.map_congr_left fun p _ => by
      by_cases hp : p.1 = k <;> simp [hp]
  · rw [kInsert, if_neg h, mapSet,
      if_neg (fun hc => h ((any_fst_eq m k).mp hc))]
    simp [keysOf]

/-- The key list of the colors fold is the abstract key fold of the
elements' keys. -/
theorem colors_fold_keys (cs : List REntry)
    (m0 : List (JKey × IdValue)) :
    keysOf (cs.foldl (fun m c => mapSet m (jsKey c) ⟨c, c⟩) m0)
      = (cs.map jsKey).foldl kInsert (keysOf m0) := by
  induction cs generalizing m0 with
  | nil => rfl
  | cons c cs ih =>
    simp only [List.foldl_cons, List.map_cons]
    rw [ih, keysOf_mapSet]

/-- Every pair the colors fold stores has its value's key as its stored
key. -/
theorem colors_fold_inv (cs : List REntry)
    (m0 : List (JKey × IdValue))
    (h0 : ∀ p ∈ m0, jsKey p.2.value = p.1) :
    ∀ p ∈ cs.foldl (fun m c => mapSet m (jsKey c) ⟨c, c⟩) m0,
      jsKey p.2.value = p.1 := by
  induction cs generalizing m0 with
  | nil => exact h0
  | cons c cs ih =>
    simp only [List.foldl_cons]
    apply ih
    intro p hp
    rw [mapSet] at hp
    split at hp
    · rcases List.mem_map.mp hp with ⟨q, hq, rfl⟩
      by_cases hqk : q.1 = jsKey c
      · simp [hqk]
      · simp only [if_neg hqk]
        exact h0 q hq
    · rcases List.mem_append.mp hp with hp | hp
      · exact h0 p hp
      · rw [List.mem_singleton.mp hp]

/-- The abstract key fold keeps its accumulator duplicate-free and
collects exactly the keys seen. -/
theorem kInsert_fold (ks : List JKey) (l0 : List JKey)
    (h0 : l0.Nodup) :
    (ks.foldl kInsert l0).Nodup ∧
    ∀ k, k ∈ ks.foldl kInsert l0 ↔ k ∈ l0 ∨ k ∈ ks := by
  induction ks generalizing l0 with
  | nil => simpa using h0
  | cons a ks ih =>
    simp only [List.foldl_cons]
    by_cases h : a ∈ l0
    · rw [kInsert, if_pos h]
      obtain ⟨hn, hm⟩ := ih l0 h0
      refine ⟨hn, fun k => ?_⟩
      rw [hm k, List.mem_cons]
      constructor
      · rintro (hk | hk)
        exacts [Or.inl hk, Or.inr (Or.inr hk)]
      · rintro (hk | rfl | hk)
        exacts [Or.inl hk, Or.inl h, Or.inr hk]
    · rw [kInsert, if_neg h]
      have hnodup : (l0 ++ [a]).Nodup := by
        simp [List.nodup_append, h0, h]
      obtain ⟨hn, hm⟩ := ih _ hnodup
      refine ⟨hn, fun k => ?_⟩
      rw [hm k, List.mem_append, List.mem_singleton, List.mem_cons]
      tauto

/-- The Set insertion acts on keys as the abstract key insertion. -/
theorem map_jsKey_setAdd (l : List REntry) (e : REntry) :
    (setAdd l e).map jsKey = kInsert (l.map jsKey) (jsKey e) := by
  have hany : (l.any (fun x => jsKey x = jsKey e)) = true ↔
      jsKey e ∈ l.map jsKey := by
    constructor
    · intro h
      rcases List.any_eq_true.mp h with ⟨x, hx, hpx⟩
      exact List.mem_map.mpr ⟨x, hx, of_decide_eq_true hpx⟩
    · intro h
      rcases List.mem_map.mp h with ⟨x, hx, hfx⟩
      exact List.any_eq_true.mpr ⟨x, hx, decide_eq_true hfx⟩
  by_cases h : jsKey e ∈ l.map jsKey
  · rw [setAdd, if_pos (hany.mpr h), kInsert, if_pos h]
  · rw [setAdd, if_neg (fun hc => h (hany.mp hc)), kInsert, if_neg h]
    simp

/-- The key list of the sizes fold is the abstract key fold of the
elements' keys. -/
theorem sizes_fold_keys (es : List REntry) (l0 : List REntry) :
    (es.foldl setAdd l0).map jsKey
      = (es.map jsKey).foldl kInsert (l0.map jsKey) := by
  induction es generalizing l0 with
  | nil => rfl
  | cons e es ih =>
    simp only [List.foldl_cons, List.map_cons]
    rw [ih, map_jsKey_setAdd]

/-- C3 (amended): colorsAPI.getAll and sizesAPI.getAll flatten all
products' raw colors/sizes and deduplicate them under the JS
SameValueZero key of the raw element — string value for a bare string,
object reference for a value-object — so the output carries each
distinct such key exactly once (duplicate-free keys, and a key appears
in the output exactly when some input element has it).  Deduplication is
not keyed by the normalized scalar value: value-objects merge only with
the very same parsed reference. -/
theorem derived_enum_dedup (ps : Option (List RawProduct)) :
    (((colorsGetAll ps).map (fun o => jsKey o.value)).Nodup ∧
      ∀ k, k ∈ (colorsGetAll ps).map (fun o => jsKey o.value) ↔
        k ∈ ((ps.getD []).flatMap (fun p => p.colors.getD [])).map
          jsKey) ∧
    ((sizesGetAll ps).map (fun o => jsKey o.value)).Nodup ∧
      ∀ k, k ∈ (sizesGetAll ps).map (fun o => jsKey o.value) ↔
        k ∈ ((ps.getD []).flatMap (fun p => p.sizes.getD [])).map
          jsKey := by
  constructor
  · have hinv := colors_fold_inv
      ((ps.getD []).flatMap (fun p => p.colors.getD [])) []
      (fun p hp => absurd hp (List.not_mem_nil p))
    have hkeys : (colorsGetAll ps).map (fun o => jsKey o.value)
        = keysOf (((ps.getD []).flatMap
            (fun p => p.colors.getD [])).foldl
              (fun m c => mapSet m (jsKey c) ⟨c, c⟩) []) := by
      show ((((ps.getD []).flatMap (fun p => p.colors.getD [])).foldl
          (fun m c => mapSet m (jsKey c) ⟨c, c⟩) []).map Prod.snd).map
            (fun o => jsKey o.value) = _
      rw [List.map_map]
      exact List.map_congr_left fun p hp => hinv p hp
    rw [hkeys, colors_fold_keys]
    exact kInsert_fold _ [] List.nodup_nil |>.imp id
      (fun hm k => (hm k).trans (by simp))
  · have hkeys : (sizesGetAll ps).map (fun o => jsKey o.value)
        = ((((ps.getD []).flatMap (fun p => p.sizes.getD [])).foldl
            setAdd []).map jsKey) := by
      show ((((ps.getD []).flatMap (fun p => p.sizes.getD [])).foldl
          setAdd []).map (fun v => (⟨v, v⟩ : IdValue))).map
            (fun o => jsKey o.value) = _
      rw [List.map_map]
      rfl
    rw [hkeys, sizes_fold_keys]
    exact kInsert_fold _ [] List.nodup_nil |>.imp id
      (fun hm k => (hm k).trans (by simp))

/-- Counterexample for C3 as stated: one product whose raw colors are
the bare string "red" and a parsed object with value "red" yields two
output entries denoting "red" (the Map keys a string by value but an
object by reference), and likewise for sizes with "7"; deduplication is
therefore not keyed by deep equality on the normalized value. -/
theorem derived_enum_dedup_counterexample :
    ((colorsGetAll
        (some [⟨some [.rstr "red", .robj 0 "red"], none⟩])).map
          (fun o => rVal o.value)).count "red" = 2 ∧
    ((colorsGetAll
        (some [⟨some [.rstr "red", .robj 0 "red"], none⟩])).map
          (fun o => rVal o.value)).count "red" ≠ 1 ∧
    ((sizesGetAll
        (some [⟨none, some [.rstr "7", .robj 0 "7"]⟩])).map
          (fun o => rVal o.value)).count "7" = 2 := by
  decide

end Greenshoes
